import Mathlib

/-!
Verification development for the "Automatic Visual Context" client
(a browser chat UI around a hosted LLM call).

The embedding below translates the non-presentational core of the
repository into Lean:

* `src/services/geminiService.ts` — `cleanJsonOutput`, the URL heuristic,
  tool selection and the post-inference processing of `sendMessageToGemini`
  (the external `generateContent` call is an input: its observable result
  is an `ApiResponse`; the JS builtin `JSON.parse` is an explicit
  parameter `parse`, since its behaviour is not repository code).
* the main `App` component (`handleSend`, the textarea Enter handler, the
  submit button's disabled predicate) as a sequential state transformer on
  `AppState` — faithful because every React state update in the source is
  a functional update applied in program order.
* `GenerativeForm` (`handleChange`, `handleSubmit`, the completion
  percentage) with JS `Record` objects modelled as association lists with
  insertion-ordered keys (field ids are modelled as non-numeric strings,
  for which `Object.keys`/`Object.values` enumerate in insertion order).

Numbers are `Nat`/`Int`/`Rat`; JS `Math.round` on non-negative arguments
is `jsRound`. Strings use Lean `String`; the JS regex whitespace class is
modelled by `isJsSpace` over the characters relevant here.
-/

/-- `FieldType` enum from `src/types.ts` (string-valued in the source). -/
inductive FieldType where
  | TEXT
  | NUMBER
  | DATE
  | TEXTAREA
  | FILE
  | SELECT
deriving DecidableEq, Repr

/-- `UIField` from `src/types.ts`: a model-produced field descriptor. -/
structure UIField where
  id : String
  type : FieldType
  label : String
  placeholder : Option String := none
  options : Option (List String) := none
  description : Option String := none
  required : Option Bool := none
deriving DecidableEq, Repr

/-- `GroundingLink` from `src/types.ts`. `uri` is `Option` because the
runtime value copied from grounding metadata may be absent (the TS types
are not enforced at runtime). -/
structure GroundingLink where
  uri : Option String
  title : String
deriving DecidableEq, Repr

/-- The `web` member of a grounding chunk (`chunk.web.uri`, `chunk.web.title`). -/
structure WebChunk where
  uri : Option String
  title : Option String
deriving DecidableEq, Repr

/-- One entry of `candidates[0].groundingMetadata.groundingChunks`;
`web` is absent on non-web chunks (the source filters on its truthiness). -/
structure GroundingChunk where
  web : Option WebChunk
deriving DecidableEq, Repr

/-- One entry of `candidates[0].urlContextMetadata.urlMetadata`; the source
reads `meta.retrievedUrl || meta.retrieved_url`. -/
structure UrlMeta where
  retrievedUrl : Option String
  retrieved_url : Option String
deriving DecidableEq, Repr

/-- JS `a || b` on two possibly-absent strings: the left operand wins when
it is truthy (present and non-empty). Models `meta.retrievedUrl || meta.retrieved_url`. -/
def jsOrOptStr (a b : Option String) : Option String :=
  match a with
  | some s => if s = "" then b else some s
  | none => b

/-- JS `s || dflt` where `dflt` is a string literal: absent or empty `s`
falls back to the default. Models `chunk.web.title || "External Source"`. -/
def jsOrStr (a : Option String) (dflt : String) : String :=
  match a with
  | some s => if s = "" then dflt else s
  | none => dflt

/-- The parsed model reply, as the fields the source reads off the result
of `JSON.parse` (each may be absent; nothing is validated client-side). -/
structure ParsedReply where
  status : Option String := none
  message : Option String := none
  fields : Option (List UIField) := none
  analysis : Option String := none
  final_output : Option String := none
  key_references : Option (List String) := none
  grounding_links : Option (List GroundingLink) := none
deriving DecidableEq, Repr

/-- `AIResponse` as returned by `sendMessageToGemini` after the source
has ensured `grounding_links` is a (possibly empty) list. -/
structure AIResponse where
  status : Option String
  message : Option String
  fields : Option (List UIField)
  analysis : Option String
  final_output : Option String
  key_references : Option (List String)
  grounding_links : List GroundingLink
deriving DecidableEq, Repr

/-- Observable outcome of the external `ai.models.generateContent` call:
the reply text and the grounding metadata the source reads. -/
structure ApiResponse where
  text : Option String
  groundingChunks : Option (List GroundingChunk)
  urlMetadata : Option (List UrlMeta)
deriving DecidableEq, Repr

/-- The two failures `sendMessageToGemini` can raise itself:
`nullResponse` is `Error("Null response from inference engine.")`,
`schemaViolation` is `Error("Model failed to adhere to the requested
response schema.")` (the spec's `SchemaViolationError`). -/
inductive SendError where
  | nullResponse
  | schemaViolation
deriving DecidableEq, Repr

/-- The JS whitespace class (`\s` in regexes, the characters `trim`
strips), restricted to the ASCII whitespace characters relevant here. -/
def isJsSpace (c : Char) : Bool :=
  c = ' ' || c = '\t' || c = '\n' || c = '\r' || c = '\x0b' || c = '\x0c'

/-- JS `String.prototype.trim` on a character list: strip leading and
trailing whitespace. -/
def jsTrimList (cs : List Char) : List Char :=
  ((cs.dropWhile isJsSpace).reverse.dropWhile isJsSpace).reverse

/-- JS `String.prototype.trim`. -/
def jsTrim (s : String) : String :=
  ⟨jsTrimList s.data⟩

/-- JS `String.prototype.startsWith` on character lists. -/
def startsWithChars (cs p : List Char) : Bool :=
  cs.take p.length == p

/-- JS `String.prototype.endsWith` on character lists. -/
def endsWithChars (cs p : List Char) : Bool :=
  cs.reverse.take p.length == p.reverse

/-- Remove the last `n` characters (`replace(/```$/, '')` after a
successful `endsWith` test removes exactly the trailing fence). -/
def dropRightChars (cs : List Char) (n : Nat) : List Char :=
  (cs.reverse.drop n).reverse

/-- `cleanJsonOutput` from `src/services/geminiService.ts`:
trim, strip a leading ` ```json ` or ` ``` ` fence (and then a trailing
` ``` ` fence when present), trim again. -/
def cleanJsonOutput (text : String) : String :=
  let cleaned := jsTrimList text.data
  let cleaned :=
    if startsWithChars cleaned "```json".data then
      let c := cleaned.drop 7
      if endsWithChars c "```".data then dropRightChars c 3 else c
    else if startsWithChars cleaned "```".data then
      let c := cleaned.drop 3
      if endsWithChars c "```".data then dropRightChars c 3 else c
    else cleaned
  ⟨jsTrimList cleaned⟩

/-- Does the regex `https?:\/\/[^\s]+` match at the head of the character
list: literal `http`, optional `s`, `://`, then at least one
non-whitespace character. -/
def matchesHttpAt : List Char → Bool
  | 'h' :: 't' :: 't' :: 'p' :: 's' :: ':' :: '/' :: '/' :: c :: _ => !(isJsSpace c)
  | 'h' :: 't' :: 't' :: 'p' :: ':' :: '/' :: '/' :: c :: _ => !(isJsSpace c)
  | _ => false

/-- `urlRegex.test(text)`: the regex `https?:\/\/[^\s]+` matches at some
position of the character list. -/
def containsHttpUrl : List Char → Bool
  | [] => false
  | c :: rest => matchesHttpAt (c :: rest) || containsHttpUrl rest

/-- `hasUrl = newInput.text && urlRegex.test(newInput.text)` — truthy text
that the URL regex matches. -/
def hasUrl (text : Option String) : Bool :=
  match text with
  | none => false
  | some t => t ≠ "" && containsHttpUrl t.data

/-- The two grounding tools the source can enable. -/
inductive Tool where
  | googleSearch
  | urlContext
deriving DecidableEq, Repr

/-- Tool selection in `sendMessageToGemini`: `googleSearch` always, plus
`urlContext` pushed when `hasUrl`. -/
def selectTools (text : Option String) : List Tool :=
  if hasUrl text then [Tool.googleSearch, Tool.urlContext]
  else [Tool.googleSearch]

/-- Thinking-level selection: `"MEDIUM"` when the model name contains
`"flash"` (JS `modelName.includes("flash")`), `"HIGH"` otherwise. -/
def thinkingLevel (modelName : String) : String :=
  if modelName.containsSubstr "flash" then "MEDIUM" else "HIGH"

/-- The search-citation links extracted from grounding chunks:
`filter(chunk => chunk.web).map(... uri, title || "External Source")`. -/
def searchLinks (chunks : Option (List GroundingChunk)) : List GroundingLink :=
  match chunks with
  | none => []
  | some cs =>
      (cs.filterMap (fun c => c.web)).map
        (fun w => { uri := w.uri, title := jsOrStr w.title "External Source" })

/-- The URL-context links: `urlMetadata.map(meta => ({uri: meta.retrievedUrl
|| meta.retrieved_url, title: "Retrieved Page Context"}))`, empty when the
metadata is absent. -/
def urlLinks (meta : Option (List UrlMeta)) : List GroundingLink :=
  match meta with
  | none => []
  | some ms =>
      ms.map (fun m =>
        { uri := jsOrOptStr m.retrievedUrl m.retrieved_url,
          title := "Retrieved Page Context" })

/-- Post-inference processing of `sendMessageToGemini`
(`src/services/geminiService.ts`): fail on a falsy reply text, parse the
fence-stripped text (the JS builtin `JSON.parse` is the `parse`
parameter; `none` models a parse exception), default a falsy
`grounding_links` to `[]`, then push search-citation links and
URL-context links onto it and return the reply. No validation of the
parsed object's fields happens. -/
def sendMessageToGemini (parse : String → Option ParsedReply)
    (resp : ApiResponse) : Except SendError AIResponse :=
  match resp.text with
  | none => .error .nullResponse
  | some t =>
      if t = "" then .error .nullResponse
      else
        match parse (cleanJsonOutput t) with
        | none => .error .schemaViolation
        | some j =>
            let base := j.grounding_links.getD []
            .ok { status := j.status
                  message := j.message
                  fields := j.fields
                  analysis := j.analysis
                  final_output := j.final_output
                  key_references := j.key_references
                  grounding_links := base ++ searchLinks resp.groundingChunks
                    ++ urlLinks resp.urlMetadata }

/-- A browser `File` as the source uses it: a name, a MIME type, and its
content (already in the base64 text form `fileToBase64` produces). -/
structure FileV where
  name : String
  type : String
  data : String
deriving DecidableEq, Repr

/-- `Attachment` from `src/types.ts`: `{mimeType, data}`. -/
structure Attachment where
  mimeType : String
  data : String
deriving DecidableEq, Repr

/-- `fileToBase64` combined with the `{mimeType, data}` pairing in
`handleSend`: the per-file payload sent to the model. -/
def fileToBase64Attachment (f : FileV) : Attachment :=
  { mimeType := f.type, data := f.data }

/-- One element of a history turn's `parts` array. `replyJson r` stands
for the text part `{text: JSON.stringify(aiResponse)}` of a model turn;
the serialized reply is kept as a value because no code in the claims
reads it back. -/
inductive HistoryPart where
  | text (s : String)
  | inlineData (a : Attachment)
  | replyJson (r : AIResponse)
deriving DecidableEq, Repr

/-- One entry of the `aiHistory` array (a model-facing conversation turn). -/
structure HistoryTurn where
  role : String
  parts : List HistoryPart
deriving DecidableEq, Repr

/-- `ChatMessage` from `src/types.ts`. -/
structure ChatMessage where
  id : String
  role : String
  content : Option String := none
  uiFields : Option (List UIField) := none
  analysis : Option String := none
  final_output : Option String := none
  formData : Option (List (String × String)) := none
  groundingLinks : Option (List GroundingLink) := none
  attachments : Option (List Attachment) := none
deriving DecidableEq, Repr

/-- The `App` component's state: the six `useState` cells that the send
pipeline touches (`isGlobalDragging` is pure presentation and omitted). -/
structure AppState where
  messages : List ChatMessage
  input : String
  isLoading : Bool
  loadingStep : String
  aiHistory : List HistoryTurn
  stagedFiles : List FileV
deriving DecidableEq, Repr

/-- Construction of `newAiMsg` in `handleSend` (the response state
machine): `COLLECTING` attaches the reply's field descriptors,
`COMPLETE` attaches analysis and final output, and the grounding links
are attached in either case. -/
def mkNewAiMsg (r : AIResponse) (idStr : String) : ChatMessage :=
  { id := idStr
    role := "ai"
    content := r.message
    uiFields := if r.status = some "COLLECTING" then r.fields else none
    analysis := if r.status = some "COMPLETE" then r.analysis else none
    final_output := if r.status = some "COMPLETE" then r.final_output else none
    groundingLinks := some r.grounding_links }

/-- The fallback assistant message appended by `handleSend`'s catch block. -/
def errorReplyMsg (idStr : String) : ChatMessage :=
  { id := idStr
    role := "ai"
    content := some "I ran into a small issue. Could you try re-stating your goal?" }

/-- `handleSend` from the `App` component, as a sequential state
transformer. `outcome` is the observed result of awaiting
`sendMessageToGemini` (an `error` value also covers transport failures
raised by the external call); `now` is the `Date.now()` timestamp used
for message ids. The returned `Bool` is `true` exactly when the guard
passed and a request was issued. Intermediate `loadingStep` values are
overwritten by the `finally` block, whose final state is recorded. -/
def handleSend (s : AppState) (text : String) (files : List FileV)
    (modelName : String) (loadingOverride : Option String)
    (outcome : Except SendError AIResponse) (now : Nat) : AppState × Bool :=
  let allFiles := files ++ s.stagedFiles
  if jsTrim text = "" && allFiles.isEmpty then (s, false)
  else
    let processedFiles := allFiles.map fileToBase64Attachment
    let newUserMsg : ChatMessage :=
      { id := toString now
        role := "user"
        content := some text
        formData :=
          if allFiles.isEmpty then none
          else some [("Attachments", String.intercalate ", " (allFiles.map (fun f => f.name)))]
        attachments := some processedFiles }
    let s1 := { s with
      messages := s.messages ++ [newUserMsg]
      input := ""
      stagedFiles := []
      isLoading := true }
    match outcome with
    | .ok aiResponse =>
        let userTurn : HistoryTurn :=
          { role := "user"
            parts := HistoryPart.text text :: processedFiles.map HistoryPart.inlineData }
        let modelTurn : HistoryTurn :=
          { role := "model", parts := [HistoryPart.replyJson aiResponse] }
        let newAiMsg := mkNewAiMsg aiResponse (toString (now + 1))
        ({ s1 with
            aiHistory := s1.aiHistory ++ [userTurn, modelTurn]
            messages := s1.messages ++ [newAiMsg]
            isLoading := false
            loadingStep := "Thinking..." }, true)
    | .error _ =>
        ({ s1 with
            messages := s1.messages ++ [errorReplyMsg (toString now)]
            isLoading := false
            loadingStep := "Thinking..." }, true)

/-- The textarea `onKeyDown` handler: plain Enter (no shift) calls
`handleSend(input)` with the defaults (`files = []`, flash model, no
loading override) and no check of `isLoading`. -/
def onTextareaKeyDown (s : AppState) (key : String) (shiftKey : Bool)
    (outcome : Except SendError AIResponse) (now : Nat) : AppState × Bool :=
  if key = "Enter" && !shiftKey then
    handleSend s s.input [] "gemini-3-flash-preview" none outcome now
  else (s, false)

/-- The composer form's `onSubmit` handler: `handleSend(input)` with the
same defaults as the Enter key. -/
def onComposerSubmit (s : AppState) (outcome : Except SendError AIResponse)
    (now : Nat) : AppState × Bool :=
  handleSend s s.input [] "gemini-3-flash-preview" none outcome now

/-- The submit button's `disabled` attribute:
`(!input.trim() && stagedFiles.length === 0) || isLoading`. -/
def submitDisabled (s : AppState) : Bool :=
  (jsTrim s.input = "" && s.stagedFiles.isEmpty) || s.isLoading

/-- JS property lookup `m[k]` on a record modelled as an association
list: the binding for `k`, `none` when absent. -/
def jsGet {α : Type} (m : List (String × α)) (k : String) : Option α :=
  (m.find? (fun p => p.1 == k)).map Prod.snd

/-- JS property assignment `m[k] = v` (as produced by object spread with
an updated key): replaces the value in place when the key exists
(keeping the key's original position), otherwise appends the binding at
the end. Keys are modelled as non-numeric strings, for which
`Object.keys`/`Object.values` enumerate in insertion order; a JS object
never holds a key twice, so the association lists built from `{}` by
this operation have duplicate-free keys. -/
def recordSet {α : Type} : List (String × α) → String → α → List (String × α)
  | [], k, v => [(k, v)]
  | p :: rest, k, v =>
      if p.1 == k then (k, v) :: rest else p :: recordSet rest k v

/-- Truthiness of a possibly-absent JS string value. -/
def jsTruthyStr (o : Option String) : Bool :=
  match o with
  | some s => s ≠ ""
  | none => false

/-- `GenerativeForm`'s local state (`src/components/GenerativeForm.tsx`,
packed in the repository after `FinalOutput`): the descriptor-backed
value record, the descriptor-bound file record, the free-notes text, and
the independently attached extra files. -/
structure FormState where
  formData : List (String × String)
  fileData : List (String × FileV)
  additionalText : String
  additionalFiles : List FileV
deriving DecidableEq, Repr

/-- The initial `GenerativeForm` state (`{}`, `{}`, `''`, `[]`). -/
def initialFormState : FormState :=
  { formData := [], fileData := [], additionalText := "", additionalFiles := [] }

/-- `GenerativeForm.handleChange`: store the value under the field id and,
when a file accompanies it, bind the file under the same id. -/
def handleChange (st : FormState) (id : String) (value : String)
    (file : Option FileV) : FormState :=
  { st with
    formData := recordSet st.formData id value
    fileData :=
      match file with
      | some f => recordSet st.fileData id f
      | none => st.fileData }

/-- A change event as `DynamicField` emits it: the field id, the new
value, and the bound file for file-type fields. -/
structure ChangeEvent where
  id : String
  value : String
  file : Option FileV
deriving DecidableEq, Repr

/-- A run of `handleChange` calls applied in order. -/
def applyChanges (st : FormState) (es : List ChangeEvent) : FormState :=
  es.foldl (fun st e => handleChange st e.id e.value e.file) st

/-- What `GenerativeForm.handleSubmit` hands to `onSubmit`. -/
structure Submission where
  data : List (String × String)
  files : List FileV
  useTurbo : Bool
deriving DecidableEq, Repr

/-- `GenerativeForm.handleSubmit`: `Object.values(fileData)` followed by
the extra files, and the value record extended with `additional_text`. -/
def handleSubmit (st : FormState) (useTurbo : Bool) : Submission :=
  let dynamicFiles := st.fileData.map Prod.snd
  let allFiles := dynamicFiles ++ st.additionalFiles
  let finalData := recordSet st.formData "additional_text" st.additionalText
  { data := finalData, files := allFiles, useTurbo := useTurbo }

/-- `completedCount` in `GenerativeForm`:
`Object.keys(formData).filter(k => formData[k]).length`. -/
def completedCount (m : List (String × String)) : Nat :=
  ((m.map Prod.fst).filter (fun k => jsTruthyStr (jsGet m k))).length

/-- JS `Math.round` on a non-negative argument: floor of the argument
plus one half (halves round up). -/
def jsRound (q : ℚ) : ℤ :=
  ⌊q + 1 / 2⌋

/-- The reported completion percentage:
`Math.round((completedCount / fields.length) * 100)`, computed exactly
over the rationals (for the 0-descriptor case JS produces `NaN`; the
claims only concern non-empty descriptor lists). -/
def progress (completed total : Nat) : ℤ :=
  jsRound ((completed : ℚ) / (total : ℚ) * 100)

/-- `handleFormSubmit` in `App`: synthesize the summary message from the
submitted record, pick the model variant from the turbo flag, and feed
everything into `handleSend`. -/
def handleFormSubmit (s : AppState) (data : List (String × String))
    (files : List FileV) (useTurbo : Bool)
    (outcome : Except SendError AIResponse) (now : Nat) : AppState × Bool :=
  let summaryParts :=
    (if files.length > 0 then [toString files.length ++ " attachment(s)"] else [])
    ++ (if jsTruthyStr (jsGet data "additional_text") then ["additional details"] else [])
  let summary := "Here is the user provided context"
    ++ (if summaryParts.length > 0 then
          " (" ++ String.intercalate ", " summaryParts ++ ")"
        else "")
    ++ ":"
  let dataString := String.intercalate "\n"
    ((data.filter (fun p => p.1 != "additional_text")).map
      (fun p => p.1 ++ ": " ++ p.2))
  let finalMessage := summary ++ "\n\n"
    ++ (if jsTruthyStr (jsGet data "additional_text") then
          "Extra info: " ++ ((jsGet data "additional_text").getD "") ++ "\n"
        else "")
    ++ "\nDetails:\n" ++ dataString
  let model := if useTurbo then "gemini-3-pro-preview" else "gemini-3-flash-preview"
  handleSend s finalMessage files model (some "Thinking and Analyzing...") outcome now

/-- Modelled from the spec: a character that can form a URL scheme name. -/
def isSchemeChar (c : Char) : Bool :=
  c.isAlpha

/-- Modelled from the spec: after one or more scheme characters, the
marker `://` followed by a non-whitespace character. -/
def schemeRestMatches : List Char → Bool
  | ':' :: '/' :: '/' :: c :: _ => !(isJsSpace c)
  | c :: rest => isSchemeChar c && schemeRestMatches rest
  | [] => false

/-- Modelled from the spec (§4.3 step 3): the text "contains at least one
substring matching a URL pattern (`scheme://` followed by
non-whitespace)" — any nonempty letter scheme, not just http/https. -/
def specHasSchemeUrl : List Char → Bool
  | [] => false
  | c :: rest => (isSchemeChar c && schemeRestMatches rest) || specHasSchemeUrl rest

/-- The file-binding events of a `handleChange` run: id–file pairs, in
the order in which the bindings happened. -/
def bindEvents (es : List ChangeEvent) : List (String × FileV) :=
  es.filterMap (fun e => e.file.map (fun f => (e.id, f)))

/-- The distinct ids of a binding run, in order of first occurrence. -/
def firstIds : List (String × FileV) → List String
  | [] => []
  | (k, _) :: rest => k :: (firstIds rest).filter (fun x => x != k)

/-- The last file bound to an id during a binding run. -/
def lastBound (bs : List (String × FileV)) (k : String) : Option FileV :=
  (bs.reverse.find? (fun p => p.1 == k)).map Prod.snd

/-- C10: a send invocation whose trimmed text is empty and which carries
no files (neither passed nor staged) is a no-op: no request is issued
and the message log, conversation history, staged files and loading flag
are all unchanged. -/
theorem handleSend_empty_input_noop (s : AppState) (text : String)
    (modelName : String) (lo : Option String)
    (outcome : Except SendError AIResponse) (now : Nat)
    (htext : jsTrim text = "") (hstaged : s.stagedFiles = []) :
    handleSend s text [] modelName lo outcome now = (s, false) := by
  unfold handleSend
  simp [htext, hstaged]

/-- Witness for C10: whitespace-only input, no staged files. -/
theorem handleSend_empty_input_noop_witness :
    handleSend ⟨[], "", false, "Thinking...", [], []⟩ " " [] "gemini-3-flash-preview"
        none (Except.error SendError.schemaViolation) 0
      = (⟨[], "", false, "Thinking...", [], []⟩, false) := by
  exact handleSend_empty_input_noop ⟨[], "", false, "Thinking...", [], []⟩ " "
    "gemini-3-flash-preview" none (Except.error SendError.schemaViolation) 0
    (by decide) rfl

/-- C2: a successful send appends exactly two entries to the model-facing
conversation history — one `user` turn followed by one `model` turn — and
a failed send appends none. -/
theorem handleSend_history_pairing (s : AppState) (text : String)
    (files : List FileV) (modelName : String) (lo : Option String)
    (now : Nat) (r : AIResponse) (e : SendError)
    (hsend : ¬(jsTrim text = "" ∧ files ++ s.stagedFiles = [])) :
    (∃ u m : HistoryTurn,
        (handleSend s text files modelName lo (Except.ok r) now).1.aiHistory
          = s.aiHistory ++ [u, m] ∧ u.role = "user" ∧ m.role = "model")
    ∧ (handleSend s text files modelName lo (Except.error e) now).1.aiHistory
        = s.aiHistory := by
  have hc : (decide (jsTrim text = "") && (files ++ s.stagedFiles).isEmpty) = false := by
    rcases Decidable.em (jsTrim text = "") with h | h
    · have hne : files ++ s.stagedFiles ≠ [] := fun hh => hsend ⟨h, hh⟩
      simp [h, List.isEmpty_eq_true, hne]
    · simp [h]
  unfold handleSend
  simp only [hc, Bool.false_eq_true, if_false]
  refine ⟨⟨_, _, rfl, rfl, rfl⟩, ?_⟩
  trivial

/-- Witness for C2: a concrete send from an empty state, succeeding with a
concrete reply and failing with a schema violation. -/
theorem handleSend_history_pairing_witness :
    (∃ u m : HistoryTurn,
        (handleSend ⟨[], "", false, "x", [], []⟩ "hi" [] "gemini-3-flash-preview"
            none (Except.ok ⟨some "COMPLETE", some "done", none, none, none, none, []⟩)
            0).1.aiHistory
          = [] ++ [u, m] ∧ u.role = "user" ∧ m.role = "model")
    ∧ (handleSend ⟨[], "", false, "x", [], []⟩ "hi" [] "gemini-3-flash-preview"
        none (Except.error SendError.schemaViolation) 0).1.aiHistory = [] := by
  exact handleSend_history_pairing ⟨[], "", false, "x", [], []⟩ "hi" []
    "gemini-3-flash-preview" none 0
    ⟨some "COMPLETE", some "done", none, none, none, none, []⟩
    SendError.schemaViolation (by decide)

/-- C3: the response state machine — a `COLLECTING` reply with descriptor
list `fs` yields an assistant message carrying exactly `fs` and neither
analysis nor final output; a `COMPLETE` reply yields a message carrying
the reply's analysis and final output and no descriptors. -/
theorem mkNewAiMsg_status_mapping (r : AIResponse) (idStr : String) :
    (∀ fs : List UIField, r.status = some "COLLECTING" → r.fields = some fs →
        (mkNewAiMsg r idStr).uiFields = some fs
        ∧ (mkNewAiMsg r idStr).analysis = none
        ∧ (mkNewAiMsg r idStr).final_output = none)
    ∧ (r.status = some "COMPLETE" →
        (mkNewAiMsg r idStr).uiFields = none
        ∧ (mkNewAiMsg r idStr).analysis = r.analysis
        ∧ (mkNewAiMsg r idStr).final_output = r.final_output) := by
  constructor
  · intro fs hst hf
    simp [mkNewAiMsg, hst, hf]
  · intro hst
    simp [mkNewAiMsg, hst]

/-- Witness for C3: one `COLLECTING` reply with one descriptor, one
`COMPLETE` reply with analysis and final output. -/
theorem mkNewAiMsg_status_mapping_witness :
    ((mkNewAiMsg ⟨some "COLLECTING", some "m",
        some [⟨"f1", FieldType.TEXT, "L", none, none, none, none⟩],
        some "a", some "o", none, []⟩ "1").uiFields
      = some [⟨"f1", FieldType.TEXT, "L", none, none, none, none⟩]
      ∧ (mkNewAiMsg ⟨some "COLLECTING", some "m",
          some [⟨"f1", FieldType.TEXT, "L", none, none, none, none⟩],
          some "a", some "o", none, []⟩ "1").analysis = none
      ∧ (mkNewAiMsg ⟨some "COLLECTING", some "m",
          some [⟨"f1", FieldType.TEXT, "L", none, none, none, none⟩],
          some "a", some "o", none, []⟩ "1").final_output = none)
    ∧ ((mkNewAiMsg ⟨some "COMPLETE", some "m", some [], some "a", some "o",
          none, []⟩ "2").uiFields = none
      ∧ (mkNewAiMsg ⟨some "COMPLETE", some "m", some [], some "a", some "o",
          none, []⟩ "2").analysis = some "a"
      ∧ (mkNewAiMsg ⟨some "COMPLETE", some "m", some [], some "a", some "o",
          none, []⟩ "2").final_output = some "o") := by
  constructor
  · exact (mkNewAiMsg_status_mapping
      ⟨some "COLLECTING", some "m",
        some [⟨"f1", FieldType.TEXT, "L", none, none, none, none⟩],
        some "a", some "o", none, []⟩ "1").1
      [⟨"f1", FieldType.TEXT, "L", none, none, none, none⟩] rfl rfl
  · exact (mkNewAiMsg_status_mapping
      ⟨some "COMPLETE", some "m", some [], some "a", some "o", none, []⟩ "2").2 rfl

/-- C1: with a request already in flight (`isLoading = true`) and
non-blank input, the submit button is disabled — but the textarea Enter
handler still calls `handleSend`, which has no `isLoading` guard: a
second request is issued (`.2 = true`) and the state changes (two
messages and two history turns are appended). -/
theorem enterKey_sends_while_loading :
    submitDisabled ⟨[⟨"init", "ai", some "welcome", none, none, none, none, none,
        none⟩], "hello", true, "Thinking...", [], []⟩ = true
    ∧ (onTextareaKeyDown
        ⟨[⟨"init", "ai", some "welcome", none, none, none, none, none, none⟩],
          "hello", true, "Thinking...", [], []⟩
        "Enter" false
        (Except.ok ⟨some "COMPLETE", some "done", none, none, none, none, []⟩)
        5).2 = true
    ∧ (onTextareaKeyDown
        ⟨[⟨"init", "ai", some "welcome", none, none, none, none, none, none⟩],
          "hello", true, "Thinking...", [], []⟩
        "Enter" false
        (Except.ok ⟨some "COMPLETE", some "done", none, none, none, none, []⟩)
        5).1.messages.length = 3
    ∧ (onTextareaKeyDown
        ⟨[⟨"init", "ai", some "welcome", none, none, none, none, none, none⟩],
          "hello", true, "Thinking...", [], []⟩
        "Enter" false
        (Except.ok ⟨some "COMPLETE", some "done", none, none, none, none, []⟩)
        5).1.aiHistory.length = 2 := by
  decide

/-- Counterexample to C4 as stated: a reply whose cleaned text parses
(here the empty JSON object, written with escaped braces) but carries
neither `status` nor `message` is NOT rejected — `sendMessageToGemini`
returns it instead of failing with the schema-violation error. -/
theorem missing_required_keys_not_rejected :
    sendMessageToGemini
      (fun t => if t = "\x7b\x7d" then some {} else none)
      ⟨some "\x7b\x7d", none, none⟩
      = Except.ok ⟨none, none, none, none, none, none, []⟩ := by
  rfl

/-- C4 (amended): whenever the fence-stripped reply text fails to parse,
`sendMessageToGemini` fails with the schema-violation error (and is not
retried — the pipeline issues exactly one call by construction); a
failed send never mutates the conversation history. Required keys are
not checked (see the counterexample). -/
theorem sendMessageToGemini_parse_failure (parse : String → Option ParsedReply)
    (resp : ApiResponse) (t : String)
    (ht : resp.text = some t) (hne : t ≠ "")
    (hp : parse (cleanJsonOutput t) = none) :
    sendMessageToGemini parse resp = Except.error SendError.schemaViolation
    ∧ ∀ (s : AppState) (txt : String) (files : List FileV) (mn : String)
        (lo : Option String) (e : SendError) (now : Nat),
        (handleSend s txt files mn lo (Except.error e) now).1.aiHistory
          = s.aiHistory := by
  constructor
  · unfold sendMessageToGemini
    rw [ht]
    simp [hne, hp]
  · intro s txt files mn lo e now
    unfold handleSend
    split
    · rename_i a heq
      cases heq
    · by_cases hb : (decide (jsTrim txt = "") && (files ++ s.stagedFiles).isEmpty) = true
      · simp [hb]
      · simp [hb]

/-- Witness for C4 (amended): unparsable reply text `not json`. -/
theorem sendMessageToGemini_parse_failure_witness :
    sendMessageToGemini (fun _ => none) ⟨some "not json", none, none⟩
      = Except.error SendError.schemaViolation
    ∧ (handleSend ⟨[], "", false, "x", [⟨"user", []⟩], []⟩ "hi" [] "m" none
        (Except.error SendError.schemaViolation) 0).1.aiHistory
      = [⟨"user", []⟩] := by
  have h := sendMessageToGemini_parse_failure (fun _ => none)
    ⟨some "not json", none, none⟩ "not json" rfl (by decide) rfl
  exact ⟨h.1, h.2 ⟨[], "", false, "x", [⟨"user", []⟩], []⟩ "hi" [] "m" none
    SendError.schemaViolation 0⟩

/-- Counterexample to C5 as stated: a parsed reply with the unrecognized
status `PENDING` is not rejected — the send succeeds and the pipeline
still builds an assistant message from it (with no descriptors, analysis
or final output attached, since both status tests fail). -/
theorem unrecognized_status_builds_message :
    sendMessageToGemini
      (fun t => if t = "x" then
          some { status := some "PENDING", message := some "hi" } else none)
      ⟨some "x", none, none⟩
      = Except.ok ⟨some "PENDING", some "hi", none, none, none, none, []⟩
    ∧ mkNewAiMsg ⟨some "PENDING", some "hi", none, none, none, none, []⟩ "9"
      = ⟨"9", "ai", some "hi", none, none, none, none, some [], none⟩ := by
  constructor
  · rfl
  · decide

/-- C5 (amended): a parsed reply whose status is neither `COLLECTING`
nor `COMPLETE` is not rejected: `sendMessageToGemini` returns it, and the
assistant message built from it carries the reply's message text but no
field descriptors, no analysis and no final output. -/
theorem unrecognized_status_not_rejected (parse : String → Option ParsedReply)
    (resp : ApiResponse) (t : String) (j : ParsedReply) (st idStr : String)
    (ht : resp.text = some t) (hne : t ≠ "")
    (hp : parse (cleanJsonOutput t) = some j)
    (hst : j.status = some st)
    (h1 : st ≠ "COLLECTING") (h2 : st ≠ "COMPLETE") :
    ∃ r : AIResponse, sendMessageToGemini parse resp = Except.ok r
      ∧ r.status = some st
      ∧ (mkNewAiMsg r idStr).content = j.message
      ∧ (mkNewAiMsg r idStr).uiFields = none
      ∧ (mkNewAiMsg r idStr).analysis = none
      ∧ (mkNewAiMsg r idStr).final_output = none := by
  refine ⟨{ status := j.status, message := j.message, fields := j.fields,
            analysis := j.analysis, final_output := j.final_output,
            key_references := j.key_references,
            grounding_links := j.grounding_links.getD []
              ++ searchLinks resp.groundingChunks ++ urlLinks resp.urlMetadata },
    ?_, ?_, rfl, ?_, ?_, ?_⟩
  · unfold sendMessageToGemini
    rw [ht]
    simp [hne, hp]
  · exact hst
  · simp [mkNewAiMsg, hst, h1]
  · simp [mkNewAiMsg, hst, h2]
  · simp [mkNewAiMsg, hst, h2]

/-- Witness for C5 (amended): status `WAITING`. -/
theorem unrecognized_status_not_rejected_witness :
    ∃ r : AIResponse,
      sendMessageToGemini
        (fun t => if t = "y" then
            some { status := some "WAITING", message := some "w" } else none)
        ⟨some "y", none, none⟩ = Except.ok r
      ∧ r.status = some "WAITING"
      ∧ (mkNewAiMsg r "7").content = some "w"
      ∧ (mkNewAiMsg r "7").uiFields = none
      ∧ (mkNewAiMsg r "7").analysis = none
      ∧ (mkNewAiMsg r "7").final_output = none := by
  exact unrecognized_status_not_rejected
    (fun t => if t = "y" then
        some { status := some "WAITING", message := some "w" } else none)
    ⟨some "y", none, none⟩ "y"
    { status := some "WAITING", message := some "w" } "WAITING" "7"
    rfl (by decide) (by decide) rfl (by decide) (by decide)

/-- `searchLinks`, written over the flattened option as the normalization
contract states it. -/
theorem searchLinks_eq (chunks : Option (List GroundingChunk)) :
    searchLinks chunks
      = ((chunks.getD []).filterMap GroundingChunk.web).map
          (fun w => ⟨w.uri, jsOrStr w.title "External Source"⟩) := by
  cases chunks <;> simp [searchLinks]

/-- `urlLinks`, written over the flattened option as the normalization
contract states it. -/
theorem urlLinks_eq (meta : Option (List UrlMeta)) :
    urlLinks meta
      = (meta.getD []).map
          (fun m => ⟨jsOrOptStr m.retrievedUrl m.retrieved_url,
                     "Retrieved Page Context"⟩) := by
  cases meta <;> simp [urlLinks]

/-- C6: the normalized grounding-link list of a successful send is the
model-provided list (empty when omitted), followed by every search
citation (title defaulting to `External Source`), followed by every
URL-fetch result (fixed title `Retrieved Page Context`), each group in
returned order, with no deduplication. -/
theorem grounding_links_normalized (parse : String → Option ParsedReply)
    (resp : ApiResponse) (t : String) (j : ParsedReply)
    (ht : resp.text = some t) (hne : t ≠ "")
    (hp : parse (cleanJsonOutput t) = some j) :
    ∃ r : AIResponse, sendMessageToGemini parse resp = Except.ok r
      ∧ r.grounding_links
          = j.grounding_links.getD []
            ++ ((resp.groundingChunks.getD []).filterMap GroundingChunk.web).map
                (fun w => ⟨w.uri, jsOrStr w.title "External Source"⟩)
            ++ (resp.urlMetadata.getD []).map
                (fun m => ⟨jsOrOptStr m.retrievedUrl m.retrieved_url,
                           "Retrieved Page Context"⟩) := by
  refine ⟨{ status := j.status, message := j.message, fields := j.fields,
            analysis := j.analysis, final_output := j.final_output,
            key_references := j.key_references,
            grounding_links := j.grounding_links.getD []
              ++ searchLinks resp.groundingChunks ++ urlLinks resp.urlMetadata },
    ?_, ?_⟩
  · unfold sendMessageToGemini
    rw [ht]
    simp [hne, hp]
  · rw [searchLinks_eq, urlLinks_eq]

/-- Witness for C6: search citations `a` (untitled) and `b`, URL-fetch
result `c` — the normalized list is `[a, b, c]` with default titles. -/
theorem grounding_links_normalized_witness :
    ∃ r : AIResponse,
      sendMessageToGemini
        (fun t => if t = "z" then some { message := some "m" } else none)
        ⟨some "z",
         some [⟨some ⟨some "a", none⟩⟩, ⟨some ⟨some "b", some "B"⟩⟩],
         some [⟨some "c", none⟩]⟩ = Except.ok r
      ∧ r.grounding_links = [⟨some "a", "External Source"⟩, ⟨some "b", "B"⟩,
          ⟨some "c", "Retrieved Page Context"⟩] := by
  obtain ⟨r, h1, h2⟩ := grounding_links_normalized
    (fun t => if t = "z" then some { message := some "m" } else none)
    ⟨some "z",
     some [⟨some ⟨some "a", none⟩⟩, ⟨some ⟨some "b", some "B"⟩⟩],
     some [⟨some "c", none⟩]⟩ "z" { message := some "m" }
    rfl (by decide) rfl
  exact ⟨r, h1, h2⟩

/-- Counterexample to C8 as stated: `ftp://x` matches the spec's URL
pattern (a scheme, `://`, non-whitespace), yet the code's regex is
`https?:\/\/[^\s]+`, so the URL-fetch tool is NOT enabled for it. -/
theorem scheme_url_not_detected :
    specHasSchemeUrl "ftp://x".data = true
    ∧ selectTools (some "ftp://x") = [Tool.googleSearch] := by
  constructor
  · decide
  · decide

/-- The head-match of the code's URL regex, as an explicit decomposition. -/
theorem matchesHttpAt_iff (cs : List Char) :
    matchesHttpAt cs = true ↔
      ∃ c post,
        (cs = 'h' :: 't' :: 't' :: 'p' :: ':' :: '/' :: '/' :: c :: post
          ∨ cs = 'h' :: 't' :: 't' :: 'p' :: 's' :: ':' :: '/' :: '/' :: c :: post)
        ∧ isJsSpace c = false := by
  unfold matchesHttpAt
  split
  · rename_i c tail
    constructor
    · intro h
      exact ⟨c, tail, Or.inr rfl, by simpa using h⟩
    · rintro ⟨c', post', h | h, hsp⟩ <;> simp_all
  · rename_i c tail
    constructor
    · intro h
      exact ⟨c, tail, Or.inl rfl, by simpa using h⟩
    · rintro ⟨c', post', h | h, hsp⟩ <;> simp_all
  · rename_i h1 h2
    constructor
    · intro h
      cases h
    · rintro ⟨c', post', h | h, hsp⟩
      · exact (h2 c' post' h).elim
      · exact (h1 c' post' h).elim

/-- The code's URL regex test as an explicit substring decomposition. -/
theorem containsHttpUrl_iff (cs : List Char) :
    containsHttpUrl cs = true ↔
      ∃ pre c post,
        (cs = pre ++ 'h' :: 't' :: 't' :: 'p' :: ':' :: '/' :: '/' :: c :: post
          ∨ cs = pre ++ 'h' :: 't' :: 't' :: 'p' :: 's' :: ':' :: '/' :: '/' :: c :: post)
        ∧ isJsSpace c = false := by
  induction cs with
  | nil =>
    simp only [containsHttpUrl]
    constructor
    · intro h
      cases h
    · rintro ⟨pre, c, post, h | h, hsp⟩ <;> simp at h
  | cons a rest ih =>
    rw [containsHttpUrl, Bool.or_eq_true, matchesHttpAt_iff, ih]
    constructor
    · rintro (⟨c, post, h, hsp⟩ | ⟨pre, c, post, h, hsp⟩)
      · exact ⟨[], c, post, by simpa using h, hsp⟩
      · refine ⟨a :: pre, c, post, ?_, hsp⟩
        rcases h with h | h
        · exact Or.inl (by simp [h])
        · exact Or.inr (by simp [h])
    · rintro ⟨pre, c, post, h, hsp⟩
      cases pre with
      | nil => exact Or.inl ⟨c, post, by simpa using h, hsp⟩
      | cons p pre' =>
        refine Or.inr ⟨pre', c, post, ?_, hsp⟩
        rcases h with h | h
        · simp only [List.cons_append] at h
          injection h with h1 h2
          exact Or.inl h2
        · simp only [List.cons_append] at h
          injection h with h1 h2
          exact Or.inr h2

/-- `hasUrl` holds exactly for a present, nonempty text containing the
code's URL shape. -/
theorem hasUrl_iff (text : Option String) :
    hasUrl text = true ↔
      ∃ t, text = some t ∧ t ≠ "" ∧
        ∃ pre c post,
          (t.data = pre ++ 'h' :: 't' :: 't' :: 'p' :: ':' :: '/' :: '/' :: c :: post
            ∨ t.data = pre ++ 'h' :: 't' :: 't' :: 'p' :: 's' :: ':' :: '/' :: '/' :: c :: post)
          ∧ isJsSpace c = false := by
  cases text with
  | none => simp [hasUrl]
  | some t => simp [hasUrl, Bool.and_eq_true, containsHttpUrl_iff]

/-- C8 (amended): the web-search tool is always enabled; the URL-fetch
tool is enabled iff the input text is present, nonempty, and contains
`http://` or `https://` followed by a non-whitespace character (only the
http and https schemes trigger the heuristic; other schemes do not —
see the counterexample). -/
theorem selectTools_web_search_and_url (text : Option String) :
    Tool.googleSearch ∈ selectTools text
    ∧ (Tool.urlContext ∈ selectTools text ↔
        ∃ t, text = some t ∧ t ≠ "" ∧
          ∃ pre c post,
            (t.data = pre ++ 'h' :: 't' :: 't' :: 'p' :: ':' :: '/' :: '/' :: c :: post
              ∨ t.data = pre ++ 'h' :: 't' :: 't' :: 'p' :: 's' :: ':' :: '/' :: '/' :: c :: post)
            ∧ isJsSpace c = false) := by
  rw [← hasUrl_iff]
  by_cases h : hasUrl text = true
  · simp [selectTools, h]
  · simp [selectTools, h]

/-- A successful JS record lookup implies key membership. -/
theorem jsGet_some_mem {α : Type} (m : List (String × α)) (k : String) (v : α)
    (h : jsGet m k = some v) : k ∈ m.map Prod.fst := by
  unfold jsGet at h
  cases hf : m.find? (fun p => p.1 == k) with
  | none => rw [hf] at h; cases h
  | some pr =>
    have hp := List.find?_some hf
    have hm : pr ∈ m := List.mem_of_find?_eq_some hf
    have hk : pr.1 = k := by simpa using hp
    exact hk ▸ List.mem_map_of_mem Prod.fst hm

/-- Counting filled values over the record's own keys equals counting
over any duplicate-free superset of ids (every truthy lookup lives in
the record's key set). -/
theorem completedCount_eq_over_ids (m : List (String × String)) (ids : List String)
    (hkeys : (m.map Prod.fst).Nodup) (hids : ids.Nodup)
    (hsub : ∀ k ∈ m.map Prod.fst, k ∈ ids) :
    completedCount m
      = (ids.filter (fun k => jsTruthyStr (jsGet m k))).length := by
  unfold completedCount
  have h1 : ((m.map Prod.fst).filter (fun k => jsTruthyStr (jsGet m k))).Nodup :=
    hkeys.filter _
  have h2 : (ids.filter (fun k => jsTruthyStr (jsGet m k))).Nodup := hids.filter _
  rw [← List.toFinset_card_of_nodup h1, ← List.toFinset_card_of_nodup h2]
  congr 1
  ext x
  simp only [List.mem_toFinset, List.mem_filter]
  constructor
  · rintro ⟨hx, hp⟩
    exact ⟨hsub x hx, hp⟩
  · rintro ⟨hx, hp⟩
    refine ⟨?_, hp⟩
    cases hg : jsGet m x with
    | none => rw [hg] at hp; simp [jsTruthyStr] at hp
    | some v => exact jsGet_some_mem m x v hg

/-- C9: for a non-empty descriptor list, the reported completion
percentage is `Math.round` of (count of descriptor ids with a non-empty
current value ÷ descriptor count × 100) — in particular 1 of 3 filled
reports 33 — and the percentage never gates submission: `handleSubmit`
produces the submission for every form state, required fields filled or
not. -/
theorem progress_is_rounded_ratio (m : List (String × String)) (flds : List UIField)
    (hkeys : (m.map Prod.fst).Nodup) (hids : (flds.map UIField.id).Nodup)
    (hsub : ∀ k ∈ m.map Prod.fst, k ∈ flds.map UIField.id) (hne : flds ≠ []) :
    progress (completedCount m) flds.length
      = jsRound (((((flds.map UIField.id).filter
            (fun k => jsTruthyStr (jsGet m k))).length : ℚ) / (flds.length : ℚ)) * 100)
    ∧ (∀ (fd : List (String × FileV)) (txt : String) (extra : List FileV) (b : Bool),
        handleSubmit ⟨m, fd, txt, extra⟩ b
          = ⟨recordSet m "additional_text" txt, fd.map Prod.snd ++ extra, b⟩)
    ∧ progress 1 3 = 33 := by
  refine ⟨?_, ?_, ?_⟩
  · rw [completedCount_eq_over_ids m (flds.map UIField.id) hkeys hids hsub]
    rfl
  · intro fd txt extra b
    rfl
  · show jsRound ((1 : ℚ) / (3 : ℚ) * 100) = 33
    norm_num [jsRound, Int.floor_eq_iff]

/-- Witness for C9: one filled descriptor of three (one of them marked
required and unfilled), and an empty-form submission. -/
theorem progress_is_rounded_ratio_witness :
    (progress (completedCount [("a", "x")])
        ([⟨"a", FieldType.TEXT, "A", none, none, none, none⟩,
          ⟨"b", FieldType.TEXT, "B", none, none, none, some true⟩,
          ⟨"c", FieldType.TEXT, "C", none, none, none, none⟩] : List UIField).length
      = jsRound (((((([⟨"a", FieldType.TEXT, "A", none, none, none, none⟩,
          ⟨"b", FieldType.TEXT, "B", none, none, none, some true⟩,
          ⟨"c", FieldType.TEXT, "C", none, none, none, none⟩] : List UIField).map
            UIField.id).filter
              (fun k => jsTruthyStr (jsGet [("a", "x")] k))).length : ℚ)
          / (([⟨"a", FieldType.TEXT, "A", none, none, none, none⟩,
              ⟨"b", FieldType.TEXT, "B", none, none, none, some true⟩,
              ⟨"c", FieldType.TEXT, "C", none, none, none, none⟩] : List UIField).length : ℚ))
          * 100))
    ∧ (∀ (fd : List (String × FileV)) (txt : String) (extra : List FileV) (b : Bool),
        handleSubmit ⟨[("a", "x")], fd, txt, extra⟩ b
          = ⟨recordSet [("a", "x")] "additional_text" txt, fd.map Prod.snd ++ extra, b⟩)
    ∧ progress 1 3 = 33 := by
  exact progress_is_rounded_ratio [("a", "x")]
    [⟨"a", FieldType.TEXT, "A", none, none, none, none⟩,
     ⟨"b", FieldType.TEXT, "B", none, none, none, some true⟩,
     ⟨"c", FieldType.TEXT, "C", none, none, none, none⟩]
    (by decide) (by decide) (by decide) (by decide)

/-- Counterexample to C7 as stated: descriptors `a` then `b` (descriptor
order `[a, b]`); the user binds a file to `b` first, then to `a`. The
submitted file list is the binding order `[fB, fA]`, not the descriptor
order `[fA, fB]`: `Object.values(fileData)` enumerates key insertion
order, not descriptor order. -/
theorem submitted_files_not_descriptor_order :
    (handleSubmit
        (applyChanges ⟨[], [], "", []⟩
          [⟨"b", "fb", some ⟨"fb", "text/plain", "B"⟩⟩,
           ⟨"a", "fa", some ⟨"fa", "text/plain", "A"⟩⟩])
        false).files
      = [⟨"fb", "text/plain", "B"⟩, ⟨"fa", "text/plain", "A"⟩]
    ∧ ([(⟨"a", FieldType.FILE, "A", none, none, none, none⟩ : UIField),
        ⟨"b", FieldType.FILE, "B", none, none, none, none⟩].filterMap
          (fun fld => jsGet (applyChanges ⟨[], [], "", []⟩
            [⟨"b", "fb", some ⟨"fb", "text/plain", "B"⟩⟩,
             ⟨"a", "fa", some ⟨"fa", "text/plain", "A"⟩⟩]).fileData fld.id))
      = [⟨"fa", "text/plain", "A"⟩, ⟨"fb", "text/plain", "B"⟩]
    ∧ ([⟨"fb", "text/plain", "B"⟩, ⟨"fa", "text/plain", "A"⟩] : List FileV)
      ≠ [⟨"fa", "text/plain", "A"⟩, ⟨"fb", "text/plain", "B"⟩] := by
  decide

/-- Keys after a JS assignment: unchanged when the key exists, appended
otherwise. -/
theorem recordSet_map_fst {α : Type} (m : List (String × α)) (k : String) (v : α) :
    (recordSet m k v).map Prod.fst
      = if k ∈ m.map Prod.fst then m.map Prod.fst else m.map Prod.fst ++ [k] := by
  induction m with
  | nil => simp [recordSet]
  | cons p rest ih =>
    by_cases h : (p.1 == k) = true
    · have hk : p.1 = k := by simpa using h
      simp [recordSet, h, hk]
    · have hk : p.1 ≠ k := by simpa using h
      by_cases hm : k ∈ rest.map Prod.fst
      · simp [recordSet, h, ih, hm, hk.symm]
      · simp [recordSet, h, ih, hm, hk.symm]

/-- Lookup after a JS assignment. -/
theorem jsGet_recordSet {α : Type} (m : List (String × α)) (k k' : String) (v : α) :
    jsGet (recordSet m k v) k' = if k' = k then some v else jsGet m k' := by
  induction m with
  | nil =>
    by_cases h : k' = k
    · simp [recordSet, jsGet, h]
    · have e : (k == k') = false := by
        simpa using fun hh : k = k' => h hh.symm
      simp [recordSet, jsGet, List.find?, e, h]
  | cons p rest ih =>
    by_cases h : (p.1 == k) = true
    · have hk : p.1 = k := by simpa using h
      by_cases h' : k' = k
      · simp [recordSet, h, jsGet, List.find?, h']
      · have e1 : (k == k') = false := by
          simpa using fun hh : k = k' => h' hh.symm
        have e2 : (p.1 == k') = false := by rw [hk]; exact e1
        simp [recordSet, h, jsGet, List.find?, e1, e2, h']
    · have hk : p.1 ≠ k := by simpa using h
      by_cases h' : (p.1 == k') = true
      · have hk' : p.1 = k' := by simpa using h'
        have hne : k' ≠ k := fun hh => hk (hk'.symm ▸ hh)
        simp [recordSet, jsGet, List.find?, hk, h', hne]
      · have e : (p.1 == k') = false := by simpa using h'
        rw [show recordSet (p :: rest) k v = p :: recordSet rest k v from by
          simp [recordSet, hk]]
        simp only [jsGet, List.find?, e]
        simpa [jsGet] using ih

/-- JS assignment preserves duplicate-free keys. -/
theorem recordSet_keys_nodup {α : Type} (m : List (String × α)) (k : String) (v : α)
    (h : (m.map Prod.fst).Nodup) : ((recordSet m k v).map Prod.fst).Nodup := by
  rw [recordSet_map_fst]
  by_cases hk : k ∈ m.map Prod.fst
  · simpa [hk] using h
  · simp only [hk, if_false]
    exact List.Nodup.append h (List.nodup_singleton k)
      (by simpa [List.disjoint_singleton] using hk)

/-- For a record with duplicate-free keys, `Object.values` is the lookup
of each key of `Object.keys`. -/
theorem values_eq_filterMap_get {α : Type} (m : List (String × α))
    (h : (m.map Prod.fst).Nodup) :
    m.map Prod.snd = (m.map Prod.fst).filterMap (fun k => jsGet m k) := by
  induction m with
  | nil => rfl
  | cons p rest ih =>
    have h1 : p.1 ∉ rest.map Prod.fst := (List.nodup_cons.mp h).1
    have h2 := (List.nodup_cons.mp h).2
    simp only [List.map_cons, List.filterMap_cons]
    rw [show jsGet (p :: rest) p.1 = some p.2 from by simp [jsGet, List.find?]]
    simp only [Option.toList]
    congr 1
    rw [ih h2]
    apply List.filterMap_congr
    intro k hkmem
    have hne : (p.1 == k) = false := by
      rcases Decidable.em (p.1 = k) with hh | hh
      · exact absurd (hh ▸ hkmem) h1
      · simpa using hh
    simp [jsGet, List.find?, hne]

/-- The last binding for a key after one more binding event. -/
theorem lastBound_append_single (bs : List (String × FileV)) (k k' : String)
    (f : FileV) :
    lastBound (bs ++ [(k, f)]) k' = if k' = k then some f else lastBound bs k' := by
  unfold lastBound
  rw [List.reverse_append]
  by_cases h : k' = k
  · simp [List.find?, h]
  · have e : (k == k') = false := by
      simpa using fun hh : k = k' => h hh.symm
    simp [List.find?, e, h]

/-- Membership in the first-occurrence id list is membership among the
binding keys. -/
theorem mem_firstIds (bs : List (String × FileV)) (x : String) :
    x ∈ firstIds bs ↔ x ∈ bs.map Prod.fst := by
  induction bs with
  | nil => simp [firstIds]
  | cons p rest ih =>
    rcases p with ⟨k0, f0⟩
    by_cases h : x = k0
    · simp [firstIds, h]
    · simp [firstIds, h, List.mem_filter, ih]

/-- First-occurrence ids after one more binding event. -/
theorem firstIds_append_single (bs : List (String × FileV)) (k : String) (f : FileV) :
    firstIds (bs ++ [(k, f)])
      = if k ∈ bs.map Prod.fst then firstIds bs else firstIds bs ++ [k] := by
  induction bs with
  | nil => simp [firstIds]
  | cons p rest ih =>
    rcases p with ⟨k0, f0⟩
    by_cases h : k ∈ rest.map Prod.fst
    · have hmem : k ∈ ((k0, f0) :: rest).map Prod.fst := by simp [h]
      show k0 :: (firstIds (rest ++ [(k, f)])).filter (fun x => x != k0)
          = if k ∈ ((k0, f0) :: rest).map Prod.fst then firstIds ((k0, f0) :: rest)
            else firstIds ((k0, f0) :: rest) ++ [k]
      rw [ih, if_pos h, if_pos hmem]
      rfl
    · by_cases h2 : k = k0
      · show k0 :: (firstIds (rest ++ [(k, f)])).filter (fun x => x != k0)
            = if k ∈ ((k0, f0) :: rest).map Prod.fst then firstIds ((k0, f0) :: rest)
              else firstIds ((k0, f0) :: rest) ++ [k]
        rw [ih, if_neg h, List.filter_append,
          if_pos (show k ∈ ((k0, f0) :: rest).map Prod.fst by simp [h2])]
        simp [h2, firstIds]
      · show k0 :: (firstIds (rest ++ [(k, f)])).filter (fun x => x != k0)
            = if k ∈ ((k0, f0) :: rest).map Prod.fst then firstIds ((k0, f0) :: rest)
              else firstIds ((k0, f0) :: rest) ++ [k]
        rw [ih, if_neg h, List.filter_append,
          if_neg (show k ∉ ((k0, f0) :: rest).map Prod.fst by simp [h, h2])]
        simp [firstIds, h2]

/-- Folding JS assignments over a binding run yields a record whose keys
are the ids in first-binding order, whose keys are duplicate-free, and
whose lookups are the last binding per id. -/
theorem foldRecordSet_spec (bs : List (String × FileV)) :
    ((bs.foldl (fun acc p => recordSet acc p.1 p.2) []).map Prod.fst
        = firstIds bs)
    ∧ ((bs.foldl (fun acc p => recordSet acc p.1 p.2) []).map Prod.fst).Nodup
    ∧ ∀ k, jsGet (bs.foldl (fun acc p => recordSet acc p.1 p.2) []) k
        = lastBound bs k := by
  induction bs using List.reverseRecOn with
  | nil =>
    refine ⟨rfl, by simp, fun k => ?_⟩
    rfl
  | append_singleton bs p ih =>
    obtain ⟨ihk, ihn, ihg⟩ := ih
    rcases p with ⟨k0, f0⟩
    have hfold : (bs ++ [(k0, f0)]).foldl (fun acc p => recordSet acc p.1 p.2) []
        = recordSet (bs.foldl (fun acc p => recordSet acc p.1 p.2) []) k0 f0 := by
      rw [List.foldl_append]
      rfl
    refine ⟨?_, ?_, fun k => ?_⟩
    · rw [hfold, recordSet_map_fst, ihk, firstIds_append_single]
      by_cases h : k0 ∈ bs.map Prod.fst
      · rw [if_pos h, if_pos ((mem_firstIds bs k0).mpr h)]
      · rw [if_neg h, if_neg (fun hh => h ((mem_firstIds bs k0).mp hh))]
    · rw [hfold]
      exact recordSet_keys_nodup _ _ _ ihn
    · rw [hfold, jsGet_recordSet, lastBound_append_single]
      by_cases h : k = k0
      · simp [h]
      · simp [h, ihg]

/-- A `handleChange` run only touches `fileData` through JS assignments
of its binding events. -/
theorem applyChanges_fileData (st : FormState) (es : List ChangeEvent) :
    (applyChanges st es).fileData
      = (bindEvents es).foldl (fun acc p => recordSet acc p.1 p.2) st.fileData := by
  induction es generalizing st with
  | nil => rfl
  | cons e rest ih =>
    have h1 : applyChanges st (e :: rest)
        = applyChanges (handleChange st e.id e.value e.file) rest := rfl
    rw [h1, ih]
    cases hf : e.file with
    | none => simp [handleChange, hf, bindEvents, List.filterMap_cons]
    | some f => simp [handleChange, hf, bindEvents, List.filterMap_cons]

/-- A `handleChange` run never touches the extra attached files. -/
theorem applyChanges_additionalFiles (st : FormState) (es : List ChangeEvent) :
    (applyChanges st es).additionalFiles = st.additionalFiles := by
  induction es generalizing st with
  | nil => rfl
  | cons e rest ih =>
    have h1 : applyChanges st (e :: rest)
        = applyChanges (handleChange st e.id e.value e.file) rest := rfl
    rw [h1, ih]
    rfl

/-- C7 (amended): for every `handleChange` run from a fresh form, the
file list handed to the submission pipeline is the descriptor-bound
files in the order the descriptors were FIRST bound (each id carrying
its last-bound file), followed by the independently attached extra
files in attachment order. The order is key insertion order of the
file record, not descriptor order (see the counterexample). -/
theorem handleSubmit_files_in_binding_order (es : List ChangeEvent)
    (txt : String) (extra : List FileV) (b : Bool) :
    (handleSubmit (applyChanges ⟨[], [], txt, extra⟩ es) b).files
      = (firstIds (bindEvents es)).filterMap (lastBound (bindEvents es)) ++ extra := by
  obtain ⟨hk, hn, hg⟩ := foldRecordSet_spec (bindEvents es)
  have h1 := applyChanges_fileData ⟨[], [], txt, extra⟩ es
  have h2 := applyChanges_additionalFiles ⟨[], [], txt, extra⟩ es
  have hfiles : (handleSubmit (applyChanges ⟨[], [], txt, extra⟩ es) b).files
      = ((applyChanges ⟨[], [], txt, extra⟩ es).fileData).map Prod.snd
        ++ (applyChanges ⟨[], [], txt, extra⟩ es).additionalFiles := rfl
  rw [hfiles, h1, h2]
  congr 1
  rw [values_eq_filterMap_get _ hn, hk]
  exact List.filterMap_congr (fun k _ => hg k)
